import Mathlib

/-!
Formal model of the ResumeMaker iterative-optimization core: the hybrid score
combiner and rule-based keyword scorer (from the fix plan code for
intelligence/hybrid_ats_scorer.py and intelligence/alternative_ats_scorer.py),
the stagnation detector, the client retry loop of
frontend/src/components/JobDescStep.tsx, and the generateWithRetry controller
pseudo-code of the migration plan. Scores are modelled as integers; text is
modelled as lists of characters.
-/

/-- A bullet of a resume entry, modelled as the list of its characters. -/
abbrev Bullet : Type := List Char

/-- A structured resume, reduced to its experience entries, each an ordered
list of bullets. Content beyond bullets is irrelevant to the claims. -/
abbrev Resume : Type := List (List Bullet)

/-- Retry boost of the hybrid combiner: min(5, retry_count * 2). -/
def retryBoost (retryCount : Nat) : Int := min 5 ((retryCount : Int) * 2)

/-- The hybrid score combiner, from the fixed _combine_scores of
intelligence/hybrid_ats_scorer.py (fix plan, Fix 2C): banded policy with a
retry boost and a final averaging fallback branch. -/
def combine_scores (aiOverall ruleOverall : Int) (retryCount : Nat) : Int :=
  if |aiOverall - ruleOverall| ≤ 15 then
    min 100 (max aiOverall ruleOverall + retryBoost retryCount)
  else if ruleOverall + 15 < aiOverall then
    aiOverall
  else if aiOverall + 15 < ruleOverall then
    min 100 (ruleOverall + retryBoost retryCount)
  else
    min 100 ((aiOverall + ruleOverall) / 2 + retryBoost retryCount)

/-- The three-branch combiner policy as the specification words it (close
scores take the max with boost, a large model lead is trusted unmodified, a
large rule lead is boosted), with no averaging fallback. Stated separately so
the source combiner can be proved to refine it. -/
def combine_scores_banded (aiOverall ruleOverall : Int) (retryCount : Nat) : Int :=
  if |aiOverall - ruleOverall| ≤ 15 then
    min 100 (max aiOverall ruleOverall + retryBoost retryCount)
  else if ruleOverall + 15 < aiOverall then
    aiOverall
  else
    min 100 (ruleOverall + retryBoost retryCount)

/-- Guard under which the averaging fallback branch of combine_scores would be
reached: all three banded guards fail. -/
def combine_fallback_guard (aiOverall ruleOverall : Int) : Bool :=
  decide (¬(|aiOverall - ruleOverall| ≤ 15) ∧ ¬(ruleOverall + 15 < aiOverall) ∧
    ¬(aiOverall + 15 < ruleOverall))

/-- C1: for scores in [0,100] and any stale count, the hybrid combiner follows
the banded policy: within a 15-point gap it returns min(100, max of the two
plus retryBoost) with retryBoost = min(5, 2 * staleCount); on a large positive
model gap it returns the model score unmodified; on a large negative gap it
returns min(100, rule + retryBoost); and combine(rule=90, model=60,
staleCount=1) = 92. -/
theorem combiner_banded_policy (ai rule : Int) (n : Nat)
    (h0 : 0 ≤ ai) (h1 : ai ≤ 100) (h2 : 0 ≤ rule) (h3 : rule ≤ 100) :
    combine_scores ai rule n = combine_scores_banded ai rule n ∧
    combine_scores 60 90 1 = 92 := by
  constructor
  · unfold combine_scores combine_scores_banded
    split_ifs with hab hgt hlt
    · rfl
    · rfl
    · rfl
    · exfalso
      rw [abs_le] at hab
      omega
  · decide

/-- Witness for C1 at the concrete input ai=80, rule=78, staleCount=0. -/
theorem combiner_banded_policy_witness : combine_scores 60 90 1 = 92 :=
  (combiner_banded_policy 80 78 0 (by decide) (by decide) (by decide) (by decide)).2

/-- C10: the three gap branches of the hybrid combiner are exhaustive for
every pair of integer scores, so the guard of the averaging fallback branch is
never satisfied and combine_scores always agrees with the three-branch banded
policy: no input ever produces the averaged result. -/
theorem combiner_fallback_unreachable :
    (∀ ai rule : Int, combine_fallback_guard ai rule = false) ∧
    (∀ (ai rule : Int) (n : Nat), combine_scores ai rule n = combine_scores_banded ai rule n) := by
  constructor
  · intro ai rule
    rw [combine_fallback_guard, decide_eq_false_iff_not]
    rw [abs_le]
    omega
  · intro ai rule n
    unfold combine_scores combine_scores_banded
    split_ifs with hab hgt hlt
    · rfl
    · rfl
    · rfl
    · exfalso
      rw [abs_le] at hab
      omega

/-- Lowercasing of a character list, modelling str.lower(). -/
def lowerL (s : List Char) : List Char := s.map Char.toLower

/-- Removal of every space, modelling str.replace(" ", ""). -/
def removeSpaces (s : List Char) : List Char := s.filter (fun c => c != ' ')

/-- Boolean test that the first list is an initial segment of the second. -/
def isPrefixB : List Char → List Char → Bool
  | [], _ => true
  | _ :: _, [] => false
  | a :: as, b :: bs => a == b && isPrefixB as bs

/-- Boolean substring test, modelling the Python membership test on strings. -/
def isInfixB (needle : List Char) : List Char → Bool
  | [] => isPrefixB needle []
  | c :: rest => isPrefixB needle (c :: rest) || isInfixB needle rest

/-- Concatenation of the bullets with single spaces, modelling " ".join(bullets). -/
def joinWithSpace (bullets : List (List Char)) : List Char :=
  List.intercalate [' '] bullets

/-- The fixed abbreviation table of _score_keywords (fix plan, Fix 2B). -/
def abbreviations : List (List Char × List Char) :=
  [("kubernetes".data, "k8s".data),
   ("amazon web services".data, "aws".data),
   ("google cloud platform".data, "gcp".data),
   ("continuous integration".data, "ci".data),
   ("continuous deployment".data, "cd".data)]

/-- One job skill matched against the lowered joined bullet text: exact
substring, whitespace-insensitive substring, or known abbreviation, as in the
bullet-scanning loop of _score_keywords. -/
def bulletSkillHit (allText : List Char) (skill : List Char) : Bool :=
  let sl := lowerL skill
  isInfixB sl allText ||
  isInfixB (removeSpaces sl) (removeSpaces allText) ||
  (match abbreviations.lookup sl with
   | some ab => isInfixB ab allText
   | none => false)

/-- The matched-keyword set of _score_keywords: the intersection of resume
skills and job skills, extended (when bullets are present) with the lowercase
of every job skill found in the joined bullet text. -/
def matched_keywords (resumeSkills jobSkills : Finset (List Char))
    (bullets : List (List Char)) : Finset (List Char) :=
  let base := resumeSkills ∩ jobSkills
  if bullets = [] then base
  else
    let allText := lowerL (joinWithSpace bullets)
    base ∪ (jobSkills.filter (fun sk => bulletSkillHit allText sk = true)).image lowerL

/-- The keyword-match sub-score of the rule-based scorer, from the fixed
_score_keywords of intelligence/alternative_ats_scorer.py: 90 when the job
has no required skills, otherwise min(100, 50 + 50 * matchRatio) with the
integer truncation of the Python int() conversion. -/
def score_keywords (resumeSkills jobSkills : Finset (List Char))
    (bullets : List (List Char)) : Nat :=
  if jobSkills = ∅ then 90
  else min 100 (50 + 50 * (matched_keywords resumeSkills jobSkills bullets).card / jobSkills.card)

/-- C5: the rule-based keyword-match sub-score is 90 on an empty required set,
exactly 50 when no keyword matches against a non-empty required set, and
otherwise equals 50 + 50 * matchRatio (integer truncation) clamped above by
100, with matchRatio the ratio of matched to required keywords. -/
theorem keyword_score_formula (resumeSkills jobSkills : Finset (List Char))
    (bullets : List (List Char)) :
    score_keywords resumeSkills jobSkills bullets =
      if jobSkills = ∅ then 90
      else if matched_keywords resumeSkills jobSkills bullets = ∅ then 50
      else min 100 (50 + 50 * (matched_keywords resumeSkills jobSkills bullets).card /
        jobSkills.card) := by
  unfold score_keywords
  by_cases hj : jobSkills = ∅
  · simp [hj]
  · by_cases hm : matched_keywords resumeSkills jobSkills bullets = ∅
    · simp only [hj, if_false, hm, if_true, Finset.card_empty, Nat.mul_zero, Nat.zero_div,
        Nat.add_zero]
      decide
    · simp [hj, hm]

/-- Modelled from the spec: the weighted overall formula of the rule-based
scorer (keyword 25 percent, structure 20, quantification 20, verbs 15, format
10, completeness 10, rounded to the nearest integer). The weighted-sum line of
intelligence/alternative_ats_scorer.py is not under src; only its final clamp
line appears in the fix plan. -/
def overall_weighted (kw star quant verbs fmt comp : Nat) : Nat :=
  (25 * kw + 20 * star + 20 * quant + 15 * verbs + 10 * fmt + 10 * comp + 50) / 100

/-- The overall score after the fixed clamp of the fix plan (Fix 2A): only an
upper clamp to 100, the earlier lower floor of 75 having been removed. -/
def overall_clamped (kw star quant verbs fmt comp : Nat) : Nat :=
  min (overall_weighted kw star quant verbs fmt comp) 100

/-- C8: for sub-scores in [0,100] the rule-based overall equals the weighted
function of the six sub-scores with the upper clamp a no-op, stays within
[0,100] (sub-scores are naturals, so 0 is the only lower bound), and carries
no artificial floor: the all-zero candidate scores exactly 0. -/
theorem overall_no_floor (kw star quant verbs fmt comp : Nat)
    (h1 : kw ≤ 100) (h2 : star ≤ 100) (h3 : quant ≤ 100)
    (h4 : verbs ≤ 100) (h5 : fmt ≤ 100) (h6 : comp ≤ 100) :
    overall_clamped kw star quant verbs fmt comp = overall_weighted kw star quant verbs fmt comp ∧
    overall_clamped kw star quant verbs fmt comp ≤ 100 ∧
    overall_clamped 0 0 0 0 0 0 = 0 := by
  have hsum : 25 * kw + 20 * star + 20 * quant + 15 * verbs + 10 * fmt + 10 * comp + 50 ≤
      10050 := by omega
  have hle : overall_weighted kw star quant verbs fmt comp ≤ 100 := by
    unfold overall_weighted
    calc (25 * kw + 20 * star + 20 * quant + 15 * verbs + 10 * fmt + 10 * comp + 50) / 100 ≤
        10050 / 100 := Nat.div_le_div_right hsum
      _ = 100 := by norm_num
  refine ⟨min_eq_left hle, ?_, by decide⟩
  unfold overall_clamped
  exact min_le_right _ _

/-- Witness for C8 at the all-100 sub-score tuple. -/
theorem overall_no_floor_witness :
    overall_clamped 100 100 100 100 100 100 = overall_weighted 100 100 100 100 100 100 ∧
    overall_clamped 100 100 100 100 100 100 ≤ 100 ∧
    overall_clamped 0 0 0 0 0 0 = 0 :=
  overall_no_floor 100 100 100 100 100 100 (by decide) (by decide) (by decide) (by decide)
    (by decide) (by decide)

/-- State of the stagnation detector: the previously seen score and the count
of consecutive non-improving attempts. -/
structure StaleState where
  prevScore : Int
  staleCount : Nat

/-- One update of the stagnation detector (fix plan, Gap 4): increment the
stale count when the current score equals the previous one, reset it to 0
otherwise, and set the previous score to the current one unconditionally. -/
def staleUpdate (st : StaleState) (current : Int) : StaleState :=
  { prevScore := current
    staleCount := if current = st.prevScore then st.staleCount + 1 else 0 }

/-- Force-variation flag of the stagnation detector: stale_count >= 2. -/
def forceVariation (st : StaleState) : Bool := decide (2 ≤ st.staleCount)

/-- The detector states produced by feeding a score sequence, in order. -/
def staleTrace (st : StaleState) : List Int → List StaleState
  | [] => []
  | s :: rest => staleUpdate st s :: staleTrace (staleUpdate st s) rest

/-- C6: the stagnation detector increments staleCount exactly on a repeated
score and resets it to 0 otherwise, always stores the current score as the new
previous score, reports forceVariation exactly when staleCount is at least 2,
and on the score sequence 70, 70, 70 produces stale counts 0, 1, 2 with
forceVariation false, false, true. -/
theorem stagnation_detector_behavior :
    (∀ (st : StaleState) (c : Int),
      (staleUpdate st c).prevScore = c ∧
      (staleUpdate st c).staleCount = (if c = st.prevScore then st.staleCount + 1 else 0)) ∧
    (∀ st : StaleState, forceVariation st = decide (2 ≤ st.staleCount)) ∧
    (staleTrace ⟨0, 0⟩ [70, 70, 70]).map StaleState.staleCount = [0, 1, 2] ∧
    (staleTrace ⟨0, 0⟩ [70, 70, 70]).map forceVariation = [false, false, true] := by
  refine ⟨fun st c => ⟨rfl, rfl⟩, fun st => rfl, by decide, by decide⟩

/-- Outcome of one retryGeneration call in the JobDescStep.tsx loop: a
successful response with a score and a resume, a response without success or
resume (which the loop ignores and keeps retrying), or a thrown error (which
breaks the loop, keeping the best result so far). -/
inductive RetryOutcome where
  | ok (score : Int) (resume : Resume)
  | softFail
  | throws

/-- Outcome of the initial generateResume call: a usable first result, or a
failure (unsuccessful response or thrown error), which is fatal. -/
inductive InitOutcome where
  | ok (score : Int) (resume : Resume)
  | failed

/-- Reasons a tailoring session can end, as the specification enumerates
them. -/
inductive TermReason where
  | targetReached
  | budgetExhausted
  | generationFailed

deriving instance DecidableEq for TermReason

/-- Result of the client retry loop: the retained best resume and score, the
number of generation attempts performed (initial attempt included), and the
ordered list of every scored result observed. -/
structure LoopResult where
  bestResult : Resume
  bestScore : Int
  attemptsUsed : Nat
  seen : List (Int × Resume)

/-- The retry loop of handleGenerate in JobDescStep.tsx, one iteration per
unit of fuel: stop when the best score has reached the target, otherwise call
the generator; a thrown call breaks with the best kept, an unsuccessful
response is skipped, and a scored result replaces the best only when its score
strictly exceeds the current best. -/
def retryLoopAux (regen : Nat → Resume → RetryOutcome) (target : Int) :
    Nat → Nat → Resume → Int → List (Int × Resume) → Nat → LoopResult
  | 0, _, best, score, seen, atts => ⟨best, score, atts, seen⟩
  | fuel + 1, retry, best, score, seen, atts =>
    if target ≤ score then ⟨best, score, atts, seen⟩
    else
      match regen retry best with
      | .throws => ⟨best, score, atts + 1, seen⟩
      | .softFail => retryLoopAux regen target fuel (retry + 1) best score seen (atts + 1)
      | .ok s r =>
        if score < s then
          retryLoopAux regen target fuel (retry + 1) r s (seen ++ [(s, r)]) (atts + 1)
        else
          retryLoopAux regen target fuel (retry + 1) best score (seen ++ [(s, r)]) (atts + 1)

/-- The client retry loop started from the successful initial attempt, as in
handleGenerate: retries 1 through maxRetries, best seeded with attempt 0. -/
def retryLoop (regen : Nat → Resume → RetryOutcome) (target : Int) (maxRetries : Nat)
    (s0 : Int) (r0 : Resume) : LoopResult :=
  retryLoopAux regen target maxRetries 1 r0 s0 [(s0, r0)] 1

/-- The tailor-mode path of handleGenerate in JobDescStep.tsx: a failed
initial generation returns no result at all; a successful one runs the retry
loop. -/
def handleGenerate (init : InitOutcome) (regen : Nat → Resume → RetryOutcome)
    (target : Int) (maxRetries : Nat) : Option LoopResult :=
  match init with
  | .failed => none
  | .ok s r => some (retryLoop regen target maxRetries s r)

/-- Modelled from the spec: the terminationReason reported for a finished
session (the tsx loop itself records no reason): target-reached when the final
best score meets the target, budget-exhausted otherwise. -/
def termReason (target : Int) (res : LoopResult) : TermReason :=
  if target ≤ res.bestScore then .targetReached else .budgetExhausted

/-- Target ATS score of JobDescStep.tsx. -/
def TARGET_ATS_SCORE : Int := 92

/-- Retry budget of JobDescStep.tsx: up to nine retries after the first
attempt. -/
def MAX_RETRIES : Nat := 9

/-- The retry loop performs at most one generation call per unit of fuel. -/
theorem retryLoopAux_attempts_le (regen : Nat → Resume → RetryOutcome) (target : Int) :
    ∀ (fuel retry : Nat) (best : Resume) (score : Int) (seen : List (Int × Resume)) (atts : Nat),
    (retryLoopAux regen target fuel retry best score seen atts).attemptsUsed ≤ atts + fuel := by
  intro fuel
  induction fuel with
  | zero =>
    intro retry best score seen atts
    simp [retryLoopAux]
  | succ n ih =>
    intro retry best score seen atts
    rw [retryLoopAux]
    by_cases h : target ≤ score
    · simp only [if_pos h]
      omega
    · simp only [if_neg h]
      cases hre : regen retry best with
      | throws => simp only; omega
      | softFail =>
        have := ih (retry + 1) best score seen (atts + 1)
        simp only
        omega
      | ok s r =>
        by_cases hs : score < s
        · simp only [if_pos hs]
          have := ih (retry + 1) r s (seen ++ [(s, r)]) (atts + 1)
          omega
        · simp only [if_neg hs]
          have := ih (retry + 1) best score (seen ++ [(s, r)]) (atts + 1)
          omega

/-- When the generator only ever returns non-improving scored results and the
running score is below the target, the loop consumes all its fuel without
changing the retained best. -/
theorem retryLoopAux_never_improving (regen : Nat → Resume → RetryOutcome) (target s0 : Int)
    (hlt : s0 < target) (hni : ∀ (k : Nat) (b : Resume), ∃ s r, regen k b = .ok s r ∧ s ≤ s0) :
    ∀ (fuel retry : Nat) (best : Resume) (seen : List (Int × Resume)) (atts : Nat),
    (retryLoopAux regen target fuel retry best s0 seen atts).attemptsUsed = atts + fuel ∧
    (retryLoopAux regen target fuel retry best s0 seen atts).bestScore = s0 ∧
    (retryLoopAux regen target fuel retry best s0 seen atts).bestResult = best := by
  intro fuel
  induction fuel with
  | zero =>
    intro retry best seen atts
    simp [retryLoopAux]
  | succ n ih =>
    intro retry best seen atts
    obtain ⟨s, r, hre, hs⟩ := hni retry best
    rw [retryLoopAux]
    rw [if_neg (not_le.mpr hlt), hre]
    simp only
    rw [if_neg (not_lt.mpr hs)]
    have := ih (retry + 1) best (seen ++ [(s, r)]) (atts + 1)
    refine ⟨?_, this.2.1, this.2.2⟩
    rw [this.1]
    omega

/-- The retry loop only ever appends to the list of observed results. -/
theorem retryLoopAux_seen_extend (regen : Nat → Resume → RetryOutcome) (target : Int) :
    ∀ (fuel retry : Nat) (best : Resume) (score : Int) (seen : List (Int × Resume)) (atts : Nat),
    ∃ ext, (retryLoopAux regen target fuel retry best score seen atts).seen = seen ++ ext := by
  intro fuel
  induction fuel with
  | zero =>
    intro retry best score seen atts
    exact ⟨[], by simp [retryLoopAux]⟩
  | succ n ih =>
    intro retry best score seen atts
    rw [retryLoopAux]
    by_cases h : target ≤ score
    · exact ⟨[], by simp [if_pos h]⟩
    · rw [if_neg h]
      cases hre : regen retry best with
      | throws => exact ⟨[], by simp⟩
      | softFail => exact ih (retry + 1) best score seen (atts + 1)
      | ok s r =>
        simp only
        by_cases hs : score < s
        · rw [if_pos hs]
          obtain ⟨ext, hext⟩ := ih (retry + 1) r s (seen ++ [(s, r)]) (atts + 1)
          exact ⟨(s, r) :: ext, by rw [hext, List.append_assoc]; rfl⟩
        · rw [if_neg hs]
          obtain ⟨ext, hext⟩ := ih (retry + 1) best score (seen ++ [(s, r)]) (atts + 1)
          exact ⟨(s, r) :: ext, by rw [hext, List.append_assoc]; rfl⟩

/-- The retained best score never decreases across the retry loop. -/
theorem retryLoopAux_score_le (regen : Nat → Resume → RetryOutcome) (target : Int) :
    ∀ (fuel retry : Nat) (best : Resume) (score : Int) (seen : List (Int × Resume)) (atts : Nat),
    score ≤ (retryLoopAux regen target fuel retry best score seen atts).bestScore := by
  intro fuel
  induction fuel with
  | zero =>
    intro retry best score seen atts
    simp [retryLoopAux]
  | succ n ih =>
    intro retry best score seen atts
    rw [retryLoopAux]
    by_cases h : target ≤ score
    · simp [if_pos h]
    · rw [if_neg h]
      cases hre : regen retry best with
      | throws => simp
      | softFail => exact ih (retry + 1) best score seen (atts + 1)
      | ok s r =>
        simp only
        by_cases hs : score < s
        · rw [if_pos hs]
          exact le_trans (le_of_lt hs) (ih (retry + 1) r s (seen ++ [(s, r)]) (atts + 1))
        · rw [if_neg hs]
          exact ih (retry + 1) best score (seen ++ [(s, r)]) (atts + 1)

/-- When every later generation call throws, the loop keeps the entry best
unchanged: a failure after attempt 0 is non-fatal and the retained best is
returned. -/
theorem retryLoopAux_all_throws (regen : Nat → Resume → RetryOutcome) (target : Int)
    (hth : ∀ (k : Nat) (b : Resume), regen k b = .throws) :
    ∀ (fuel retry : Nat) (best : Resume) (score : Int) (seen : List (Int × Resume)) (atts : Nat),
    (retryLoopAux regen target fuel retry best score seen atts).bestResult = best ∧
    (retryLoopAux regen target fuel retry best score seen atts).bestScore = score := by
  intro fuel
  induction fuel with
  | zero =>
    intro retry best score seen atts
    simp [retryLoopAux]
  | succ n ih =>
    intro retry best score seen atts
    rw [retryLoopAux]
    by_cases h : target ≤ score
    · simp [if_pos h]
    · rw [if_neg h, hth retry best]
      simp

/-- A one-entry resume fixture. -/
def rEx : Resume := [[ "led team".data ]]

/-- A second resume fixture. -/
def rEx2 : Resume := [[ "did stuff".data ]]

/-- A third resume fixture. -/
def rEx3 : Resume := [[ "shipped product".data ]]

/-- A generator that always returns the same high score and never improves on
it, used to refute the universal exactly-N-attempts reading of the budget
claim. -/
def regenConst95 : Nat → Resume → RetryOutcome := fun _ _ => .ok 95 rEx

/-- A generator that always returns a non-improving score of 60. -/
def regenConst60 : Nat → Resume → RetryOutcome := fun _ _ => .ok 60 rEx2

/-- A generator whose every call throws. -/
def regenThrowAll : Nat → Resume → RetryOutcome := fun _ _ => .throws

/-- A generator producing an improvement on the first retry and a tying score
on the second, used to exercise the tie-keeps-earlier policy. -/
def regenTie : Nat → Resume → RetryOutcome := fun k _ =>
  if k = 1 then .ok 80 rEx2 else if k = 2 then .ok 80 rEx3 else .softFail

/-- C2 counterexample: with maxAttempts = 3 (two retries after the first
attempt) and a generator that never improves on the initial score of 95, the
tsx loop stops after a single attempt with reason target-reached, not after
exactly 3 attempts with budget-exhausted as the claim universally states. -/
theorem budget_claim_counterexample :
    handleGenerate (.ok 95 rEx) regenConst95 TARGET_ATS_SCORE 2 =
      some ⟨rEx, 95, 1, [(95, rEx)]⟩ ∧
    (1 : Nat) ≠ 3 ∧
    termReason TARGET_ATS_SCORE ⟨rEx, 95, 1, [(95, rEx)]⟩ = .targetReached := by
  exact ⟨rfl, by decide, rfl⟩

/-- C2 (amended): the loop performs at most maxRetries + 1 generation
attempts for every generator; and when the generator never improves on an
initial score that is below the target, the loop performs exactly
maxRetries + 1 attempts, ends with reason budget-exhausted, and returns the
attempt-0 result and score unchanged. -/
theorem budget_exhaustion_amended (regen : Nat → Resume → RetryOutcome) (target : Int)
    (maxRetries : Nat) (s0 : Int) (r0 : Resume)
    (hlt : s0 < target)
    (hni : ∀ (k : Nat) (b : Resume), ∃ s r, regen k b = .ok s r ∧ s ≤ s0) :
    (∀ (regen2 : Nat → Resume → RetryOutcome) (init : InitOutcome) (res : LoopResult),
      handleGenerate init regen2 target maxRetries = some res →
      res.attemptsUsed ≤ maxRetries + 1) ∧
    (retryLoop regen target maxRetries s0 r0).attemptsUsed = maxRetries + 1 ∧
    termReason target (retryLoop regen target maxRetries s0 r0) = .budgetExhausted ∧
    (retryLoop regen target maxRetries s0 r0).bestResult = r0 ∧
    (retryLoop regen target maxRetries s0 r0).bestScore = s0 := by
  have hmain := retryLoopAux_never_improving regen target s0 hlt hni maxRetries 1 r0
    [(s0, r0)] 1
  refine ⟨?_, ?_, ?_, hmain.2.2, hmain.2.1⟩
  · intro regen2 init res hres
    cases init with
    | failed => simp [handleGenerate] at hres
    | ok s r =>
      simp only [handleGenerate, Option.some.injEq] at hres
      subst hres
      have := retryLoopAux_attempts_le regen2 target maxRetries 1 r s [(s, r)] 1
      unfold retryLoop
      omega
  · unfold retryLoop
    omega
  · unfold termReason retryLoop
    rw [hmain.2.1]
    exact if_neg (not_le.mpr hlt)

/-- Witness for C2 (amended): two retries, target 92, initial score 70, a
generator stuck at 60: exactly 3 attempts, budget exhausted, attempt 0 kept. -/
theorem budget_exhaustion_amended_witness :
    (retryLoop regenConst60 92 2 70 rEx).attemptsUsed = 3 ∧
    termReason 92 (retryLoop regenConst60 92 2 70 rEx) = .budgetExhausted ∧
    (retryLoop regenConst60 92 2 70 rEx).bestResult = rEx ∧
    (retryLoop regenConst60 92 2 70 rEx).bestScore = 70 := by
  have h := budget_exhaustion_amended regenConst60 92 2 70 rEx (by decide)
    (fun k b => ⟨60, rEx2, rfl, by decide⟩)
  exact ⟨h.2.1, h.2.2.1, h.2.2.2.1, h.2.2.2.2⟩

/-- C7: a failed initial generation is fatal and yields no result at all; a
successful one always yields a result whose observed history starts with
attempt 0 and whose retained best score is at least the attempt-0 score; and
when every later call throws, the loop is non-fatal and returns exactly the
attempt-0 result. -/
theorem generation_failure_policy (regen : Nat → Resume → RetryOutcome) (target : Int)
    (m : Nat) :
    handleGenerate .failed regen target m = none ∧
    (∀ (s : Int) (r : Resume),
      handleGenerate (.ok s r) regen target m = some (retryLoop regen target m s r)) ∧
    (∀ (s : Int) (r : Resume), (retryLoop regen target m s r).seen.head? = some (s, r)) ∧
    (∀ (s : Int) (r : Resume), s ≤ (retryLoop regen target m s r).bestScore) ∧
    ((∀ (k : Nat) (b : Resume), regen k b = .throws) →
      ∀ (s : Int) (r : Resume),
        (retryLoop regen target m s r).bestResult = r ∧
        (retryLoop regen target m s r).bestScore = s) := by
  refine ⟨rfl, fun s r => rfl, ?_, ?_, ?_⟩
  · intro s r
    obtain ⟨ext, hext⟩ := retryLoopAux_seen_extend regen target m 1 r s [(s, r)] 1
    unfold retryLoop
    rw [hext]
    rfl
  · intro s r
    exact retryLoopAux_score_le regen target m 1 r s [(s, r)] 1
  · intro hth s r
    exact retryLoopAux_all_throws regen target hth m 1 r s [(s, r)] 1

/-- Witness for C7: with every retry throwing, the session still returns the
attempt-0 result with its score of 50. -/
theorem generation_failure_policy_witness :
    (retryLoop regenThrowAll 92 9 50 rEx).bestResult = rEx ∧
    (retryLoop regenThrowAll 92 9 50 rEx).bestScore = 50 :=
  (generation_failure_policy regenThrowAll 92 9).2.2.2.2 (fun _ _ => rfl) 50 rEx

/-- Invariant of the retry loop: every observed score is bounded by the
retained best score, and the retained best is the earliest observed result
attaining that score. -/
theorem retryLoopAux_best_seen (regen : Nat → Resume → RetryOutcome) (target : Int) :
    ∀ (fuel retry : Nat) (best : Resume) (score : Int) (seen : List (Int × Resume)) (atts : Nat),
    (∀ p ∈ seen, p.1 ≤ score) →
    seen.find? (fun p => p.1 == score) = some (score, best) →
    ((∀ p ∈ (retryLoopAux regen target fuel retry best score seen atts).seen,
        p.1 ≤ (retryLoopAux regen target fuel retry best score seen atts).bestScore) ∧
      (retryLoopAux regen target fuel retry best score seen atts).seen.find?
          (fun p => p.1 == (retryLoopAux regen target fuel retry best score seen atts).bestScore)
        = some ((retryLoopAux regen target fuel retry best score seen atts).bestScore,
            (retryLoopAux regen target fuel retry best score seen atts).bestResult)) := by
  intro fuel
  induction fuel with
  | zero =>
    intro retry best score seen atts hall hfind
    exact ⟨hall, hfind⟩
  | succ n ih =>
    intro retry best score seen atts hall hfind
    rw [retryLoopAux]
    by_cases h : target ≤ score
    · rw [if_pos h]
      exact ⟨hall, hfind⟩
    · rw [if_neg h]
      cases hre : regen retry best with
      | throws => exact ⟨hall, hfind⟩
      | softFail => exact ih (retry + 1) best score seen (atts + 1) hall hfind
      | ok s r =>
        simp only
        by_cases hs : score < s
        · rw [if_pos hs]
          refine ih (retry + 1) r s (seen ++ [(s, r)]) (atts + 1) ?_ ?_
          · intro p hp
            rcases List.mem_append.mp hp with hp1 | hp1
            · exact le_of_lt (lt_of_le_of_lt (hall p hp1) hs)
            · simp only [List.mem_singleton] at hp1
              rw [hp1]
          · rw [List.find?_append]
            have hnone : seen.find? (fun p => p.1 == s) = none := by
              rw [List.find?_eq_none]
              intro x hx
              have hle := hall x hx
              simp only [beq_iff_eq]
              omega
            rw [hnone]
            simp [List.find?]
        · rw [if_neg hs]
          refine ih (retry + 1) best score (seen ++ [(s, r)]) (atts + 1) ?_ ?_
          · intro p hp
            rcases List.mem_append.mp hp with hp1 | hp1
            · exact hall p hp1
            · simp only [List.mem_singleton] at hp1
              rw [hp1]
              exact not_lt.mp hs
          · rw [List.find?_append, hfind]
            rfl

/-- C4: the retained best score is at least the attempt-0 score, bounds every
observed score, and the returned best result is the earliest observed attempt
attaining the best score, so a tie keeps the earlier attempt and the best is
replaced only on strict improvement. -/
theorem best_attempt_policy (regen : Nat → Resume → RetryOutcome) (target : Int) (m : Nat)
    (s0 : Int) (r0 : Resume) :
    s0 ≤ (retryLoop regen target m s0 r0).bestScore ∧
    (∀ p ∈ (retryLoop regen target m s0 r0).seen,
      p.1 ≤ (retryLoop regen target m s0 r0).bestScore) ∧
    (retryLoop regen target m s0 r0).seen.find?
        (fun p => p.1 == (retryLoop regen target m s0 r0).bestScore)
      = some ((retryLoop regen target m s0 r0).bestScore,
          (retryLoop regen target m s0 r0).bestResult) := by
  have h := retryLoopAux_best_seen regen target m 1 r0 s0 [(s0, r0)] 1
    (by
      intro p hp
      simp only [List.mem_singleton] at hp
      rw [hp])
    (by simp [List.find?])
  exact ⟨retryLoopAux_score_le regen target m 1 r0 s0 [(s0, r0)] 1, h.1, h.2⟩

/-- Witness for C4 on a generator that improves once and then ties: the
returned best is the earliest attempt attaining the final best score. -/
theorem best_attempt_policy_witness :
    (retryLoop regenTie 92 3 70 rEx).seen.find?
        (fun p => p.1 == (retryLoop regenTie 92 3 70 rEx).bestScore)
      = some ((retryLoop regenTie 92 3 70 rEx).bestScore,
          (retryLoop regenTie 92 3 70 rEx).bestResult) :=
  (best_attempt_policy regenTie 92 3 70 rEx).2.2

/-- Page status attached to a generation response: the needs_content flag and
the optional suggestion text, which may carry a CONSOLIDATE marker. -/
structure PageStatusR where
  needs_content : Bool
  suggestion : Option (List Char)

/-- One generation response of the generateWithRetry pseudo-code: score,
tailored resume and optional page status. -/
structure GenResult2 where
  ats_score : Int
  tailored_resume : Resume
  page_status : Option PageStatusR

/-- The consolidation marker scanned for in suggestions. -/
def consolidateMarker : List Char := "CONSOLIDATE".data

/-- Test for the CONSOLIDATE marker in an optional suggestion, modelling
suggestion?.includes of the pseudo-code. -/
def suggestionHasConsolidate : Option (List Char) → Bool
  | none => false
  | some s => isInfixB consolidateMarker s

/-- Test for the CONSOLIDATE marker through an optional page status. -/
def hasConsolidateMarker : Option PageStatusR → Bool
  | none => false
  | some ps => suggestionHasConsolidate ps.suggestion

/-- Page half of the dual-success test of generateWithRetry: a page status is
present, does not need content, and carries no CONSOLIDATE marker. -/
def pagePassedB : Option PageStatusR → Bool
  | none => false
  | some ps => !ps.needs_content && !(suggestionHasConsolidate ps.suggestion)

/-- The dual-success test: the current score reaches the target and the page
status passes. -/
def dualSuccess (target : Int) (r : GenResult2) : Bool :=
  decide (target ≤ r.ats_score) && pagePassedB r.page_status

/-- Mutable state of the generateWithRetry loop: best resume and score so far,
previous score and stale count for stagnation detection, the current tailored
resume, and the last page status. -/
structure GWRState where
  bestResume : Option Resume
  bestScore : Int
  prevScore : Int
  staleCount : Nat
  tailored : Resume
  page : Option PageStatusR

/-- Result of the generateWithRetry loop. -/
structure GWRResult where
  resume : Option Resume
  score : Int
  attemptsUsed : Nat
  succeeded : Bool
  finalScore : Int
  finalPage : Option PageStatusR

/-- One post-generation state update of generateWithRetry: replace the best on
strict score improvement, update stale detection and the previous score, and,
when the attempt is not a dual success but the page status carries the
CONSOLIDATE marker, route the candidate through the consolidation path. -/
def gwrStep (consolidate : Resume → Resume) (target : Int) (st : GWRState)
    (r : GenResult2) : GWRState :=
  let bestScore := if st.bestScore < r.ats_score then r.ats_score else st.bestScore
  let bestResume := if st.bestScore < r.ats_score then some r.tailored_resume else st.bestResume
  let staleCount := if r.ats_score = st.prevScore then st.staleCount + 1 else 0
  if dualSuccess target r = true then
    ⟨bestResume, bestScore, r.ats_score, staleCount, r.tailored_resume, r.page_status⟩
  else if hasConsolidateMarker r.page_status = true then
    ⟨some (consolidate r.tailored_resume), bestScore, r.ats_score, staleCount,
      consolidate r.tailored_resume, r.page_status⟩
  else
    ⟨bestResume, bestScore, r.ats_score, staleCount, r.tailored_resume, r.page_status⟩

/-- The generateWithRetry loop of the migration plan: one generation call per
attempt against the best resume so far (or the current tailored one), with
force variation per the stale count; it breaks exactly on a dual success and
otherwise continues until the attempt budget is exhausted. -/
def gwrLoop (gen : Nat → Resume → Bool → GenResult2) (consolidate : Resume → Resume)
    (target : Int) : Nat → Nat → GWRState → GWRResult
  | 0, attempt, st => ⟨st.bestResume, st.bestScore, attempt - 1, false, st.prevScore, st.page⟩
  | fuel + 1, attempt, st =>
    let r := gen attempt (st.bestResume.getD st.tailored) (decide (2 ≤ st.staleCount))
    if dualSuccess target r = true then
      let st2 := gwrStep consolidate target st r
      ⟨st2.bestResume, st2.bestScore, attempt, true, r.ats_score, r.page_status⟩
    else
      gwrLoop gen consolidate target fuel (attempt + 1) (gwrStep consolidate target st r)

/-- generateWithRetry of the migration plan, started on the original resume
with empty session state. -/
def generateWithRetry (gen : Nat → Resume → Bool → GenResult2)
    (consolidate : Resume → Resume) (maxAttempts : Nat) (target : Int)
    (original : Resume) : GWRResult :=
  gwrLoop gen consolidate target maxAttempts 1 ⟨none, 0, 0, 0, original, none⟩

/-- Target score of the generateWithRetry pseudo-code. -/
def TARGET_SCORE : Int := 92

/-- Attempt budget of the generateWithRetry pseudo-code. -/
def MAX_ATTEMPTS : Nat := 10

/-- A success exit of the generateWithRetry loop happened at an attempt whose
own score reached the target with a passing page status, within the fuel. -/
theorem gwrLoop_success_conditions (gen : Nat → Resume → Bool → GenResult2)
    (consolidate : Resume → Resume) (target : Int) :
    ∀ (fuel attempt : Nat) (st : GWRState),
    (gwrLoop gen consolidate target fuel attempt st).succeeded = true →
    target ≤ (gwrLoop gen consolidate target fuel attempt st).finalScore ∧
    pagePassedB (gwrLoop gen consolidate target fuel attempt st).finalPage = true ∧
    (gwrLoop gen consolidate target fuel attempt st).attemptsUsed ≤ attempt - 1 + fuel := by
  intro fuel
  induction fuel with
  | zero =>
    intro attempt st hsucc
    exact absurd hsucc (by simp [gwrLoop])
  | succ n ih =>
    intro attempt st hsucc
    rw [gwrLoop] at hsucc ⊢
    by_cases hd : dualSuccess target
        (gen attempt (st.bestResume.getD st.tailored) (decide (2 ≤ st.staleCount))) = true
    · rw [if_pos hd] at hsucc ⊢
      have hd2 := hd
      unfold dualSuccess at hd2
      rw [Bool.and_eq_true] at hd2
      refine ⟨?_, hd2.2, ?_⟩
      · exact (decide_eq_true_eq).mp hd2.1
      · simp only
        omega
    · rw [if_neg hd] at hsucc ⊢
      have := ih (attempt + 1)
        (gwrStep consolidate target st
          (gen attempt (st.bestResume.getD st.tailored) (decide (2 ≤ st.staleCount)))) hsucc
      refine ⟨this.1, this.2.1, ?_⟩
      have hb := this.2.2
      omega

/-- An acceptable page status: content sufficient and no marker. -/
def pageOk : PageStatusR := ⟨false, none⟩

/-- A generator scoring 70 on the first attempt and 95 afterwards, always with
an acceptable page status. -/
def genC3 : Nat → Resume → Bool → GenResult2 := fun k _ _ =>
  if k ≤ 1 then ⟨70, rEx, some pageOk⟩ else ⟨95, rEx2, some pageOk⟩

/-- The identity consolidation stub used for concrete loop runs. -/
def consolidateId : Resume → Resume := fun c => c

/-- C3: the generateWithRetry loop declares success only on the dual-success
test: whenever it reports success, the final attempt reached the target score
with a passing page status, within the attempt budget; and success terminates
the loop immediately, as on a generator whose attempt 2 scores 95 with an
acceptable page: the loop stops at exactly 2 attempts and attempt 3 is never
run. -/
theorem dual_success_termination (gen : Nat → Resume → Bool → GenResult2)
    (consolidate : Resume → Resume) (maxAttempts : Nat) (target : Int) (original : Resume)
    (hs : (generateWithRetry gen consolidate maxAttempts target original).succeeded = true) :
    target ≤ (generateWithRetry gen consolidate maxAttempts target original).finalScore ∧
    pagePassedB (generateWithRetry gen consolidate maxAttempts target original).finalPage
      = true ∧
    (generateWithRetry gen consolidate maxAttempts target original).attemptsUsed
      ≤ maxAttempts ∧
    ((generateWithRetry genC3 consolidateId 10 92 rEx3).succeeded = true ∧
      (generateWithRetry genC3 consolidateId 10 92 rEx3).attemptsUsed = 2) := by
  unfold generateWithRetry at hs ⊢
  have h := gwrLoop_success_conditions gen consolidate target maxAttempts 1
    ⟨none, 0, 0, 0, original, none⟩ hs
  exact ⟨h.1, h.2.1, by have := h.2.2; omega, rfl, rfl⟩

/-- Witness for C3 on the concrete generator succeeding at attempt 2. -/
theorem dual_success_termination_witness :
    92 ≤ (generateWithRetry genC3 consolidateId 10 92 rEx3).finalScore ∧
    pagePassedB (generateWithRetry genC3 consolidateId 10 92 rEx3).finalPage = true :=
  ⟨(dual_success_termination genC3 consolidateId 10 92 rEx3 rfl).1,
   (dual_success_termination genC3 consolidateId 10 92 rEx3 rfl).2.1⟩

/-- Total number of bullets of a resume. -/
def bulletCount (cand : Resume) : Nat := (cand.map List.length).sum

/-- All bullets of a resume in order. -/
def allBullets (cand : Resume) : List Bullet := cand.flatten

/-- Modelled from the spec: the Trim Generator of the consolidation path
(ContentGenerator consolidation is not under src): remove from the candidate
exactly the bullets identified as weak, merging and adding nothing. -/
def trim (cand : Resume) (weakBullets : List Bullet) : Resume :=
  cand.map (fun entry => entry.filter (fun b => decide (b ∉ weakBullets)))

/-- The page-fit classification outcomes of the specification. -/
inductive PageFitClass where
  | acceptable
  | needsContent
  | needsConsolidation

deriving instance DecidableEq for PageFitClass

/-- A page-fit report as the specification describes the input of classify. -/
structure PageReport where
  fillPercentage : Int
  lastPageFill : Int
  pageCount : Nat
  targetPageCount : Nat
  markerPresent : Bool
  bandMin : Int

/-- Modelled from the spec: the Page-Fit Evaluator classification
(intelligence/page_manager.py is not under src): consolidation on a marker or
on a sparse trailing page (fill below 40 while the page count exceeds the
target), more content when below the band minimum, acceptable otherwise. -/
def classify (p : PageReport) : PageFitClass :=
  if p.markerPresent = true ∨ (p.lastPageFill < 40 ∧ p.targetPageCount < p.pageCount) then
    .needsConsolidation
  else if p.fillPercentage < p.bandMin then .needsContent
  else .acceptable

/-- Filtering with a predicate that rejects some member of the list strictly
shortens it. -/
theorem length_filter_lt_of_mem {α : Type} (q : α → Bool) (l : List α) (a : α)
    (ha : a ∈ l) (hq : q a = false) : (l.filter q).length < l.length := by
  induction l with
  | nil => cases ha
  | cons x xs ih =>
    rcases List.mem_cons.mp ha with hax | hax
    · subst hax
      rw [List.filter_cons, hq]
      simp only [if_neg (Bool.false_ne_true)]
      exact Nat.lt_succ_of_le (List.length_filter_le q xs)
    · rw [List.filter_cons]
      by_cases hx : q x = true
      · rw [if_pos hx]
        simpa using Nat.succ_lt_succ (ih hax)
      · rw [if_neg hx]
        exact Nat.lt_succ_of_lt (ih hax)

/-- Trimming never increases the bullet count of any single entry list. -/
theorem trim_count_le (cand : Resume) (weakBullets : List Bullet) :
    bulletCount (trim cand weakBullets) ≤ bulletCount cand := by
  unfold bulletCount trim
  induction cand with
  | nil => simp
  | cons e cs ih =>
    simp only [List.map_cons, List.map_map, List.sum_cons]
    simp only [List.map_map] at ih
    have he := List.length_filter_le (fun b => decide (b ∉ weakBullets)) e
    omega

/-- Every bullet surviving a trim was a bullet of the input. -/
theorem trim_no_new_content (cand : Resume) (weakBullets : List Bullet) (b : Bullet)
    (hb : b ∈ allBullets (trim cand weakBullets)) : b ∈ allBullets cand := by
  unfold allBullets at hb ⊢
  unfold trim at hb
  rw [List.mem_flatten] at hb ⊢
  obtain ⟨s, hs, hbs⟩ := hb
  rw [List.mem_map] at hs
  obtain ⟨e, he, hes⟩ := hs
  subst hes
  exact ⟨e, he, (List.mem_filter.mp hbs).1⟩

/-- Trimming a candidate that actually contains a weak bullet strictly reduces
the total bullet count. -/
theorem trim_strict_decrease (cand : Resume) (weakBullets : List Bullet) (b : Bullet)
    (hb : b ∈ allBullets cand) (hw : b ∈ weakBullets) :
    bulletCount (trim cand weakBullets) < bulletCount cand := by
  unfold bulletCount trim
  unfold allBullets at hb
  induction cand with
  | nil => simp at hb
  | cons e cs ih =>
    rw [List.flatten_cons, List.mem_append] at hb
    simp only [List.map_cons, List.map_map, List.sum_cons]
    rcases hb with hbe | hbc
    · have hstrict : (e.filter (fun b => decide (b ∉ weakBullets))).length < e.length := by
        refine length_filter_lt_of_mem _ e b hbe ?_
        simp [hw]
      have hrest : ((cs.map (fun entry => entry.filter
          (fun b => decide (b ∉ weakBullets)))).map List.length).sum ≤
          (cs.map List.length).sum := by
        have := trim_count_le cs weakBullets
        unfold bulletCount trim at this
        exact this
      simp only [List.map_map] at hrest
      omega
    · have he := List.length_filter_le (fun b => decide (b ∉ weakBullets)) e
      have := ih hbc
      simp only [List.map_map] at this
      omega

/-- A two-entry, three-bullet candidate fixture. -/
def candEx : Resume := [[ "led team".data, "did stuff".data ], [ "shipped product".data ]]

/-- A weak-bullet list fixture naming one bullet of candEx. -/
def weakEx : List Bullet := [ "did stuff".data ]

/-- An empty session state fixture for the generateWithRetry loop. -/
def stEx : GWRState := ⟨none, 0, 0, 0, rEx, none⟩

/-- A generation result below target whose page status carries the
CONSOLIDATE marker. -/
def genResultConsolidate : GenResult2 :=
  ⟨70, rEx2, some ⟨false, some ("CONSOLIDATE: sparse trailing page".data)⟩⟩

/-- A page report fixture: last page 30 percent full, two pages against a
one-page target, no marker, band minimum 85. -/
def reportEx : PageReport := ⟨30, 30, 2, 1, false, 85⟩

/-- C9: a non-successful attempt whose page status carries the consolidation
signal routes the candidate through the consolidation path, replacing both the
working resume and the best resume by the consolidated candidate; a sparse
trailing page (30 percent fill with page count above target) classifies as
needing consolidation; and the trim path never increases the bullet count,
adds no new bullet, and strictly reduces the count whenever a weak bullet is
present. -/
theorem consolidation_path_policy (cons : Resume → Resume) (target : Int) (st : GWRState)
    (r : GenResult2) (hns : dualSuccess target r = false)
    (hmk : hasConsolidateMarker r.page_status = true) :
    ((gwrStep cons target st r).tailored = cons r.tailored_resume ∧
      (gwrStep cons target st r).bestResume = some (cons r.tailored_resume)) ∧
    (∀ p : PageReport, p.lastPageFill = 30 → p.targetPageCount < p.pageCount →
      classify p = .needsConsolidation) ∧
    (∀ (cand : Resume) (weak : List Bullet), bulletCount (trim cand weak) ≤ bulletCount cand) ∧
    (∀ (cand : Resume) (weak : List Bullet) (b : Bullet),
      b ∈ allBullets (trim cand weak) → b ∈ allBullets cand) ∧
    (∀ (cand : Resume) (weak : List Bullet) (b : Bullet),
      b ∈ allBullets cand → b ∈ weak → bulletCount (trim cand weak) < bulletCount cand) := by
  refine ⟨?_, ?_, fun cand weak => trim_count_le cand weak,
    fun cand weak b hb => trim_no_new_content cand weak b hb,
    fun cand weak b hb hw => trim_strict_decrease cand weak b hb hw⟩
  · unfold gwrStep
    rw [if_neg (by simp [hns]), if_pos hmk]
    exact ⟨rfl, rfl⟩
  · intro p h1 h2
    unfold classify
    rw [if_pos (Or.inr ⟨by rw [h1]; decide, h2⟩)]

/-- Witness for C9 on concrete data: the consolidation route applies trim, the
trim strictly reduces the bullet count of the fixture candidate, and the
sparse page report classifies as needing consolidation. -/
theorem consolidation_path_policy_witness :
    (gwrStep (fun c => trim c weakEx) 92 stEx genResultConsolidate).tailored
        = trim genResultConsolidate.tailored_resume weakEx ∧
    bulletCount (trim candEx weakEx) < bulletCount candEx ∧
    classify reportEx = .needsConsolidation := by
  have h := consolidation_path_policy (fun c => trim c weakEx) 92 stEx genResultConsolidate
    (by decide) (by decide)
  exact ⟨h.1.1, h.2.2.2.2 candEx weakEx ("did stuff".data) (by decide) (by decide),
    h.2.1 reportEx rfl (by decide)⟩
